import Mathlib

/-!
# Verification of the native constraint solver
  (src/apps/api/native/src/constraint-solver.c)

Shallow embedding of the workout constraint solver: catalog data model,
hard-filter predicate, scoring engine, time estimator, greedy scheduling
loop, and the N-API boundary operations.

Modelling conventions:
* C `float` values (activations, scoring weights, rest multipliers) are
  embedded as `ℚ`.  Every float comparison the code performs is exact, and
  all float literals in the source except `0.6f` are exactly representable;
  `0.6f` (the fat-loss rest multiplier) is embedded as `3/5`, which differs
  from the binary32 value by less than `2.4e-8` and affects none of the
  properties proved here.
* C `int32_t` bit masks are embedded as `ℕ` bit-sets queried with
  `Nat.testBit`; the masks the program builds occupy bits `0..31`.
* The C cast `(int32_t)` of a non-negative float truncates toward zero;
  it is embedded as `ratTrunc`.
* The 16-word `int32_t[16]` exclusion array is kept as a list of words with
  the source's `bucket < 16` guard; the solver's 16-word `selected_mask`
  over catalog indices (always `< 500`, hence bucket `< 16`) is embedded as
  a single `ℕ` bit-set, which coincides with the C representation on that
  range.
-/

/-- Scoring weights (struct `ScoringWeights`). -/
structure ScoringWeights where
  goal_alignment : ℚ
  compound_preference : ℚ
  recovery_penalty_24h : ℚ
  recovery_penalty_48h : ℚ
  fitness_level_match : ℚ
  muscle_coverage_gap : ℚ
  deriving Repr, DecidableEq

/-- Exercise record (struct `Exercise`).  `activations` is the per-muscle
activation array (C: `float activations[50]`, zero-initialised); reading
muscle `i` is `activations.getD i 0`, matching the zero fill. -/
structure Exercise where
  id : Nat
  difficulty : Int
  is_compound : Bool
  movement_pattern : Nat
  estimated_seconds : Int
  rest_seconds : Int
  activations : List ℚ
  primary_muscles_mask : Nat
  locations_mask : Nat
  equipment_required_mask : Nat
  deriving Repr, DecidableEq

instance : Inhabited Exercise :=
  ⟨⟨0, 0, false, 0, 0, 0, [], 0, 0, 0⟩⟩

/-- Solver request (struct `SolverRequest`).  `excluded_exercises_mask` is
the packed 16-word exclusion bit-set; missing words read as `0`
(the C struct is zero-initialised). -/
structure SolverRequest where
  time_available_seconds : Int
  location : Nat
  equipment_mask : Nat
  goals_mask : Nat
  fitness_level : Int
  excluded_exercises_mask : List Nat
  excluded_muscles_mask : Nat
  recent_24h_muscles_mask : Nat
  recent_48h_muscles_mask : Nat
  weights : ScoringWeights
  deriving Repr, DecidableEq

/-- Activation of muscle `i` (C: `ex->activations[i]`, array zero-filled). -/
def act (ex : Exercise) (i : Nat) : ℚ :=
  ex.activations.getD i 0

/-- Membership of exercise id `id` in the packed 16-word exclusion bit-set
(C: `bucket = id / 32; bit = id % 32; bucket < 16 && (mask[bucket] & (1 << bit))`). -/
def isExcluded (id : Nat) (excl : List Nat) : Bool :=
  decide (id / 32 < 16) && (excl.getD (id / 32) 0).testBit (id % 32)

/-- Hard-filter predicate (C function `passes_hard_filters`): location bit,
equipment subset (skipped for gym = location 0), exclusion bit-set,
primary-muscle exclusion overlap, and the 40% activation cap on excluded
muscles (loop over the 50 muscle slots). -/
def passes_hard_filters (ex : Exercise) (req : SolverRequest) : Bool :=
  ex.locations_mask.testBit req.location &&
  (req.location == 0 || ex.equipment_required_mask &&& req.equipment_mask == ex.equipment_required_mask) &&
  !(isExcluded ex.id req.excluded_exercises_mask) &&
  ex.primary_muscles_mask &&& req.excluded_muscles_mask == 0 &&
  (List.range 50).all fun i =>
    !(req.excluded_muscles_mask.testBit i && decide (40 < act ex i))

/-- Goal-preferred movement-pattern masks (C array `GOAL_PREFERRED_PATTERNS`;
goal order: strength, hypertrophy, endurance, mobility, fat_loss; pattern
bits: push=0, pull=1, squat=2, hinge=3, carry=4, core=5, isolation=6). -/
def GOAL_PREFERRED_PATTERNS : List Nat :=
  [(1 <<< 2) ||| (1 <<< 3) ||| (1 <<< 0) ||| (1 <<< 1),
   (1 <<< 0) ||| (1 <<< 1) ||| (1 <<< 2) ||| (1 <<< 3),
   (1 <<< 0) ||| (1 <<< 1) ||| (1 <<< 2) ||| (1 <<< 5),
   (1 <<< 5) ||| (1 <<< 3) ||| (1 <<< 2),
   (1 <<< 2) ||| (1 <<< 3) ||| (1 <<< 0) ||| (1 <<< 1)]

/-- Which goals prefer compound movements (C array `GOAL_PREFER_COMPOUND`). -/
def GOAL_PREFER_COMPOUND : List Bool :=
  [true, true, false, false, true]

/-- Difficulty range lower bounds by fitness level (C array `DIFFICULTY_MIN`). -/
def DIFFICULTY_MIN : List Int := [1, 2, 3]

/-- Difficulty range upper bounds by fitness level (C array `DIFFICULTY_MAX`). -/
def DIFFICULTY_MAX : List Int := [2, 3, 5]

/-- Scoring engine (C function `score_exercise`): goal alignment, compound
preference, recovery penalties over activated muscles, fitness-level match
with too-hard penalty, and the coverage-gap bonus for muscles not yet in
`coverage`. -/
def score_exercise (ex : Exercise) (req : SolverRequest) (coverage : Nat) : ℚ :=
  let s1 : ℚ :=
    if req.goals_mask ≠ 0 then
      (List.range 5).foldl
        (fun s goal =>
          if req.goals_mask.testBit goal then
            let s := if (GOAL_PREFERRED_PATTERNS.getD goal 0).testBit ex.movement_pattern then
                s + req.weights.goal_alignment else s
            if (GOAL_PREFER_COMPOUND.getD goal false) && ex.is_compound then
              s + req.weights.goal_alignment * (1 / 2) else s
          else s) 0
    else 0
  let s2 : ℚ := if ex.is_compound then req.weights.compound_preference else 0
  let s3 : ℚ :=
    (List.range 50).foldl
      (fun s i =>
        if 0 < act ex i then
          if req.recent_24h_muscles_mask.testBit i then s + req.weights.recovery_penalty_24h
          else if req.recent_48h_muscles_mask.testBit i then s + req.weights.recovery_penalty_48h
          else s
        else s) 0
  let s4 : ℚ :=
    if 0 ≤ req.fitness_level ∧ req.fitness_level ≤ 2 then
      let minD := DIFFICULTY_MIN.getD req.fitness_level.toNat 0
      let maxD := DIFFICULTY_MAX.getD req.fitness_level.toNat 0
      (if minD ≤ ex.difficulty ∧ ex.difficulty ≤ maxD then req.weights.fitness_level_match else 0)
        - (if maxD < ex.difficulty then ((ex.difficulty - maxD : Int) : ℚ) * 5 else 0)
    else 0
  let s5 : ℚ :=
    (List.range 50).foldl
      (fun s i =>
        if 0 < act ex i ∧ coverage.testBit i = false then s + req.weights.muscle_coverage_gap
        else s) 0
  s1 + s2 + s3 + s4 + s5

/-- Truncation of a rational toward zero (the C cast `(int32_t)` applied to
a float value). -/
def ratTrunc (q : ℚ) : ℤ :=
  if 0 ≤ q then ⌊q⌋ else ⌈q⌉

/-- Time estimator (C function `estimate_time`): 3 s per rep, rest between
sets scaled by the goal multiplier and truncated to an integer by the C
cast, plus a 30 s setup charge when any equipment is required. -/
def estimate_time (ex : Exercise) (sets reps : Int) (rest_multiplier : ℚ) : Int :=
  let rep_duration : Int := 3
  let rep_time := reps * rep_duration
  let rest_time := ratTrunc ((ex.rest_seconds : ℚ) * rest_multiplier)
  let setup_time : Int := if ex.equipment_required_mask ≠ 0 then 30 else 0
  setup_time + sets * rep_time + (sets - 1) * rest_time

/-- Warmup/cooldown reserve (C `solve`, line 270). -/
def reserve (time_available : Int) : Int :=
  if 1800 ≤ time_available then 300 else 120

/-- Rest multiplier from the goals mask (C `solve`, lines 274-278; goal
bits: strength=0, hypertrophy=1, endurance=2, mobility=3, fat_loss=4).
The C literal `0.6f` is embedded as `3/5` (see the header comment). -/
def restMult (goals : Nat) : ℚ :=
  if goals.testBit 0 then 3 / 2
  else if goals.testBit 2 then 1 / 2
  else if goals.testBit 4 then 3 / 5
  else if goals.testBit 3 then 3 / 4
  else 1

/-- Base sets/reps from the goals mask (C `solve`, lines 281-285). -/
def setsReps (goals : Nat) : Int × Int :=
  if goals.testBit 0 then (5, 4)
  else if goals.testBit 1 then (4, 10)
  else if goals.testBit 2 then (2, 20)
  else if goals.testBit 4 then (3, 14)
  else (3, 10)

/-- Bit-set of muscles with non-zero activation (C `solve`, lines 332-336:
the bits unioned into `coverage_mask` on selection). -/
def muscleCover (ex : Exercise) : Nat :=
  (List.range 50).foldl (fun m i => if 0 < act ex i then m ||| (1 <<< i) else m) 0

/-- Transient per-solve state (C `solve` locals `selected_mask`,
`coverage_mask`, `time_remaining` and the output arrays). -/
structure SolveState where
  selected : Nat
  coverage : Nat
  timeRemaining : Int
  results : List (Nat × Int × Int)
  deriving Repr, DecidableEq

/-- Insertion into a list sorted by score descending (ties keep insertion
order, a deterministic refinement of the C `qsort` comparator
`compare_scores`, which leaves tie order unspecified). -/
def insertDesc (x : Nat × ℚ) : List (Nat × ℚ) → List (Nat × ℚ)
  | [] => [x]
  | y :: ys => if y.2 ≤ x.2 then x :: y :: ys else y :: insertDesc x ys

/-- Sort by score descending (C `qsort` with `compare_scores`). -/
def sortDesc : List (Nat × ℚ) → List (Nat × ℚ)
  | [] => []
  | x :: xs => insertDesc x (sortDesc xs)

/-- First ranked candidate whose estimated time fits the remaining budget
(C `solve`, lines 318-347 scan); returns the index and its estimate. -/
def firstFit (catalog : List Exercise) (sets reps : Int) (mult : ℚ)
    (timeRemaining : Int) : List (Nat × ℚ) → Option (Nat × Int)
  | [] => none
  | s :: rest =>
    let t := estimate_time (catalog.getD s.1 default) sets reps mult
    if t ≤ timeRemaining then some (s.1, t) else firstFit catalog sets reps mult timeRemaining rest

/-- One round of the selection loop (C `solve`, lines 294-349): score the
not-yet-selected candidates against the current coverage, rank them, and
commit the best one that fits; `none` when no candidate fits (starvation)
or none remain. -/
def solveStep (catalog : List Exercise) (req : SolverRequest) (sets reps : Int)
    (mult : ℚ) (valid : List Nat) (st : SolveState) : Option SolveState :=
  let scored := (valid.filter (fun i => !st.selected.testBit i)).map
    (fun i => (i, score_exercise (catalog.getD i default) req st.coverage))
  match firstFit catalog sets reps mult st.timeRemaining (sortDesc scored) with
  | none => none
  | some (idx, t) =>
    some { selected := st.selected ||| (1 <<< idx)
           coverage := st.coverage ||| muscleCover (catalog.getD idx default)
           timeRemaining := st.timeRemaining - t
           results := st.results ++ [(idx, sets, reps)] }

/-- The selection loop (C `solve` `while` loop).  The fuel argument is the
remaining output capacity: the C condition `result_count < max_results`
holds exactly when fuel is positive, since every iteration that continues
commits exactly one selection. -/
def solveLoop (catalog : List Exercise) (req : SolverRequest) (sets reps : Int)
    (mult : ℚ) (valid : List Nat) : Nat → SolveState → SolveState
  | 0, st => st
  | fuel + 1, st =>
    if 60 < st.timeRemaining then
      match solveStep catalog req sets reps mult valid st with
      | none => st
      | some st2 => solveLoop catalog req sets reps mult valid fuel st2
    else st

/-- The solver (C function `solve`): filter once, derive the per-request
parameters, then greedily select.  Output entries are
`(exercise index, sets, reps)`. -/
def solve (catalog : List Exercise) (req : SolverRequest) (maxResults : Nat) :
    List (Nat × Int × Int) :=
  if catalog.length = 0 then []
  else
    let valid := (List.range catalog.length).filter
      (fun i => passes_hard_filters (catalog.getD i default) req)
    if valid.length = 0 then []
    else
      let st0 : SolveState :=
        ⟨0, 0, req.time_available_seconds - reserve req.time_available_seconds, []⟩
      (solveLoop catalog req (setsReps req.goals_mask).1 (setsReps req.goals_mask).2
        (restMult req.goals_mask) valid maxResults st0).results

/-- The time-estimate formula exactly as claim C4 words it, with
round-to-nearest on the scaled rest time. -/
def estimate_time_round (ex : Exercise) (sets reps : Int) (rest_multiplier : ℚ) : Int :=
  (if ex.equipment_required_mask ≠ 0 then 30 else 0) +
    sets * (reps * 3) + (sets - 1) * round ((ex.rest_seconds : ℚ) * rest_multiplier)

/-- The time-estimate formula with the scaled rest time truncated toward
zero (the behaviour of the C cast). -/
def estimate_time_trunc (ex : Exercise) (sets reps : Int) (rest_multiplier : ℚ) : Int :=
  (if ex.equipment_required_mask ≠ 0 then 30 else 0) +
    sets * (reps * 3) + (sets - 1) * ratTrunc ((ex.rest_seconds : ℚ) * rest_multiplier)

/-- Time accounting for each output entry: the estimate the scheduler
charged for it. -/
def entryTime (catalog : List Exercise) (mult : ℚ) (e : Nat × Int × Int) : Int :=
  estimate_time (catalog.getD e.1 default) e.2.1 e.2.2 mult

/-- A minimal catalog entry: gym-only push exercise, difficulty 1, no
equipment, no recorded activations, 60 s rest. -/
def exH : Exercise := ⟨0, 1, false, 0, 60, 60, [], 0, 1, 0⟩

/-- A hypertrophy-only request (goals_mask bit 1), 600 s at the gym. -/
def reqH : SolverRequest := ⟨600, 0, 0, 2, 0, [], 0, 0, 0, ⟨0, 0, 0, 0, 0, 0⟩⟩

/-- The goal precedence list actually implemented for sets/reps (first
matching bit wins): strength`(5,4)`, hypertrophy`(4,10)`, endurance`(2,20)`,
fat_loss`(3,14)`; mobility has no sets/reps branch. -/
def goalPriority : List (Nat × Int × Int) :=
  [(0, 5, 4), (1, 4, 10), (2, 2, 20), (4, 3, 14)]

/-- First-matching-goal reading of the sets/reps derivation, against which
the if-chain in the code is checked. -/
def setsRepsSpec (goals : Nat) : Int × Int :=
  match goalPriority.find? (fun p => goals.testBit p.1) with
  | some p => p.2
  | none => (3, 10)

/-- An all-zero request: no time available, gym location, no goals. -/
def reqZero : SolverRequest := ⟨0, 0, 0, 0, 0, [], 0, 0, 0, ⟨0, 0, 0, 0, 0, 0⟩⟩

/-- Catalog capacity (C macro `MAX_EXERCISES`). -/
def MAX_EXERCISES : Nat := 500

/-- Muscle-slot capacity (C macro `MAX_MUSCLES`). -/
def MAX_MUSCLES : Nat := 50

/-- The module's process-wide state (C globals `g_exercises` +
`g_exercise_count`, and the `g_initialized` flag). -/
structure NativeState where
  g_exercises : List Exercise
  g_init : Bool
  deriving Repr, DecidableEq

/-- The `initExercises` binding (C `InitExercises`): replaces the catalog
wholesale, truncating to 500 records and each activation list to 50
entries, sets the initialised flag, and returns the loaded count. -/
def initExercises (input : List Exercise) : NativeState × Nat :=
  let loaded := (input.take MAX_EXERCISES).map
    (fun e => { e with activations := e.activations.take MAX_MUSCLES })
  (⟨loaded, true⟩, loaded.length)

/-- The default scoring weights the boundary installs
(C `Solve`/`ScoreBatch`: `{10, 5, -20, -10, 5, 15}`). -/
def defaultWeights : ScoringWeights := ⟨10, 5, -20, -10, 5, 15⟩

/-- The request object the host passes across the boundary.  It carries a
`weights` member so that the question "does the solver read caller
weights?" is expressible; the C `Solve` binding never reads such a
property. -/
structure RequestObj where
  timeAvailableSeconds : Int
  location : Nat
  equipmentMask : Nat
  goalsMask : Nat
  fitnessLevel : Int
  excludedMusclesMask : Nat
  recent24hMusclesMask : Nat
  recent48hMusclesMask : Nat
  excludedExercisesMask : List Nat
  weights : ScoringWeights
  deriving Repr, DecidableEq

/-- Request parsing in the C `Solve` binding: all named scalar properties
are copied, the exclusion words are truncated to 16, and the weights are
the fixed defaults — the caller's `weights` member is ignored. -/
def parseRequest (r : RequestObj) : SolverRequest :=
  { time_available_seconds := r.timeAvailableSeconds
    location := r.location
    equipment_mask := r.equipmentMask
    goals_mask := r.goalsMask
    fitness_level := r.fitnessLevel
    excluded_exercises_mask := r.excludedExercisesMask.take 16
    excluded_muscles_mask := r.excludedMusclesMask
    recent_24h_muscles_mask := r.recent24hMusclesMask
    recent_48h_muscles_mask := r.recent48hMusclesMask
    weights := defaultWeights }

/-- The error message of the C `Solve` binding's guard. -/
def uninitMsg : String := "Exercises not initialized. Call initExercises first."

/-- The `solve` binding (C `Solve`): errors unless initialised *and* the
catalog is non-empty (`!g_initialized || g_exercise_count == 0`), else runs
the solver with `max_results = MAX_EXERCISES`. -/
def SolveB (st : NativeState) (r : RequestObj) :
    Except String (List (Nat × Int × Int)) :=
  if !st.g_init || st.g_exercises.length == 0 then Except.error uninitMsg
  else Except.ok (solve st.g_exercises (parseRequest r) MAX_EXERCISES)

/-- The request the C `ScoreBatch` binding builds: only `goalsMask`,
`fitnessLevel` and the two recency masks are copied from the caller; the
rest stays zero-initialised and the weights are the defaults. -/
def scoreBatchReq (r : RequestObj) : SolverRequest :=
  { time_available_seconds := 0
    location := 0
    equipment_mask := 0
    goals_mask := r.goalsMask
    fitness_level := r.fitnessLevel
    excluded_exercises_mask := []
    excluded_muscles_mask := 0
    recent_24h_muscles_mask := r.recent24hMusclesMask
    recent_48h_muscles_mask := r.recent48hMusclesMask
    weights := defaultWeights }

/-- The per-index loop of the C `ScoreBatch` binding: out-of-range indices
(negative or at least the catalog size) yield `0.0`; in-range indices are
scored with coverage mask `0` and no hard filter. -/
def scoreBatchLoop (cat : List Exercise) (req : SolverRequest) :
    List Int → List ℚ
  | [] => []
  | idx :: rest =>
    (if 0 ≤ idx ∧ idx < (cat.length : Int)
     then score_exercise (cat.getD idx.toNat default) req 0 else 0)
      :: scoreBatchLoop cat req rest

/-- The `scoreBatch` binding (C `ScoreBatch`): errors only when not
initialised, then maps the loop over the index list. -/
def ScoreBatchB (st : NativeState) (indices : List Int) (r : RequestObj) :
    Except String (List ℚ) :=
  if !st.g_init then Except.error "Not initialized"
  else Except.ok (scoreBatchLoop st.g_exercises (scoreBatchReq r) indices)

/-- `a` is a bit-subset of `b` iff `a &&& b = a` (the C test is
`(a & ~b) == 0` on 32-bit words, which is the same relation). -/
theorem land_eq_self_iff_subset (a b : Nat) :
    a &&& b = a ↔ ∀ i, a.testBit i = true → b.testBit i = true := by
  constructor
  · intro h i hi
    have := congrArg (fun x => Nat.testBit x i) h
    simp only [Nat.testBit_and] at this
    rcases hb : b.testBit i with _ | _
    · rw [hi, hb] at this; simp at this
    · rfl
  · intro h
    apply Nat.eq_of_testBit_eq
    intro i
    rcases ha : a.testBit i with _ | _
    · simp [Nat.testBit_and, ha]
    · simp [Nat.testBit_and, ha, h i ha]

theorem land_eq_zero_iff (a b : Nat) :
    a &&& b = 0 ↔ ∀ i, ¬(a.testBit i = true ∧ b.testBit i = true) := by
  constructor
  · intro h i hi
    have := congrArg (fun x => Nat.testBit x i) h
    simp only [Nat.testBit_and, Nat.zero_testBit] at this
    rw [hi.1, hi.2] at this; simp at this
  · intro h
    apply Nat.eq_of_testBit_eq
    intro i
    simp only [Nat.testBit_and, Nat.zero_testBit]
    rcases ha : a.testBit i with _ | _
    · simp
    · rcases hb : b.testBit i with _ | _
      · simp
      · exact absurd ⟨ha, hb⟩ (h i)

/-- **C1.**  The hard filter accepts an exercise iff all five conditions
hold: (1) the request's location bit is set in `locations_mask`; (2) away
from the gym (location 0) every required-equipment bit is available;
(3) the id is not in the excluded-exercises bit-set; (4) `primary_muscles_mask`
does not meet `excluded_muscles_mask`; (5) every excluded muscle has
activation at most 40.  (The hypothesis that the activation array has at
most the 50 slots of the C array makes condition (5) quantify over all
muscle indices.) -/
theorem passes_hard_filters_iff (ex : Exercise) (req : SolverRequest)
    (hact : ex.activations.length ≤ 50) :
    passes_hard_filters ex req = true ↔
      ex.locations_mask.testBit req.location = true ∧
      (req.location ≠ 0 → ∀ i, ex.equipment_required_mask.testBit i = true →
        req.equipment_mask.testBit i = true) ∧
      isExcluded ex.id req.excluded_exercises_mask = false ∧
      ex.primary_muscles_mask &&& req.excluded_muscles_mask = 0 ∧
      (∀ m, req.excluded_muscles_mask.testBit m = true → act ex m ≤ 40) := by
  unfold passes_hard_filters
  simp only [Bool.and_eq_true, Bool.or_eq_true, beq_iff_eq, Bool.not_eq_true',
    List.all_eq_true, List.mem_range, Bool.not_eq_true]
  constructor
  · rintro ⟨⟨⟨⟨h1, h2⟩, h3⟩, h4⟩, h5⟩
    refine ⟨h1, ?_, h3, h4, ?_⟩
    · intro hloc
      rcases h2 with h2 | h2
      · exact absurd h2 hloc
      · exact (land_eq_self_iff_subset _ _).mp h2
    · intro m hm
      by_cases hm50 : m < 50
      · have := h5 m hm50
        rw [hm] at this
        simp only [Bool.true_and] at this
        have : ¬ (40 < act ex m) := by
          intro hgt
          rw [decide_eq_true hgt] at this
          exact absurd this (by simp)
        exact le_of_not_lt this
      · have : act ex m = 0 := by
          unfold act
          apply List.getD_eq_default
          omega
        rw [this]; norm_num
  · rintro ⟨h1, h2, h3, h4, h5⟩
    refine ⟨⟨⟨⟨h1, ?_⟩, h3⟩, h4⟩, ?_⟩
    · by_cases hloc : req.location = 0
      · exact Or.inl hloc
      · exact Or.inr ((land_eq_self_iff_subset _ _).mpr (h2 hloc))
    · intro m _
      rcases hm : req.excluded_muscles_mask.testBit m with _ | _
      · simp
      · have := h5 m hm
        simp [Bool.true_and, decide_eq_false (not_lt.mpr this)]

/-- Witness for `passes_hard_filters_iff`: a gym push exercise with a
single 30% activation against an exclusion-free request passes the filter. -/
theorem passes_hard_filters_iff_witness :
    ([(30 : ℚ)].length ≤ 50) ∧
      passes_hard_filters
        ⟨7, 2, true, 0, 60, 60, [30], 1, 1, 0⟩
        ⟨600, 0, 0, 2, 1, [], 0, 0, 0, ⟨10, 5, -20, -10, 5, 15⟩⟩ = true := by
  refine ⟨by decide, ?_⟩
  apply (passes_hard_filters_iff _ _ (by decide)).mpr
  refine ⟨by decide, fun h => absurd rfl h, by decide, by decide, ?_⟩
  intro m hm
  simp [Nat.zero_testBit] at hm

/-- Truncation of an integer cast is the identity. -/
theorem ratTrunc_intCast (n : ℤ) : ratTrunc (n : ℚ) = n := by
  unfold ratTrunc
  split <;> simp

/-- **C10.**  An exercise whose id is 512 or more can never be removed by
the excluded-exercises filter: its bucket `id / 32` is at least 16, so the
C guard `bucket < 16` skips the lookup; consequently the hard filter's
verdict is independent of the exclusion bit-set. -/
theorem excluded_filter_skips_large_ids (ex : Exercise) (req : SolverRequest)
    (l1 l2 : List Nat) (h : 512 ≤ ex.id) :
    isExcluded ex.id l1 = false ∧
      passes_hard_filters ex { req with excluded_exercises_mask := l1 } =
        passes_hard_filters ex { req with excluded_exercises_mask := l2 } := by
  have hbucket : ∀ l : List Nat, isExcluded ex.id l = false := by
    intro l
    unfold isExcluded
    have : ¬ (ex.id / 32 < 16) := by omega
    simp [this]
  refine ⟨hbucket l1, ?_⟩
  unfold passes_hard_filters
  simp only [hbucket]

/-- Witness for `excluded_filter_skips_large_ids`: id 600 is immune even to
an exclusion set with every bit of every word set. -/
theorem excluded_filter_skips_large_ids_witness :
    isExcluded 600 (List.replicate 16 (2 ^ 32 - 1)) = false ∧
      passes_hard_filters ⟨600, 1, false, 0, 0, 0, [], 0, 1, 0⟩
          { time_available_seconds := 600, location := 0, equipment_mask := 0,
            goals_mask := 0, fitness_level := 0,
            excluded_exercises_mask := List.replicate 16 (2 ^ 32 - 1),
            excluded_muscles_mask := 0, recent_24h_muscles_mask := 0,
            recent_48h_muscles_mask := 0, weights := ⟨0, 0, 0, 0, 0, 0⟩ } =
        passes_hard_filters ⟨600, 1, false, 0, 0, 0, [], 0, 1, 0⟩
          { time_available_seconds := 600, location := 0, equipment_mask := 0,
            goals_mask := 0, fitness_level := 0, excluded_exercises_mask := [],
            excluded_muscles_mask := 0, recent_24h_muscles_mask := 0,
            recent_48h_muscles_mask := 0, weights := ⟨0, 0, 0, 0, 0, 0⟩ } :=
  excluded_filter_skips_large_ids
    ⟨600, 1, false, 0, 0, 0, [], 0, 1, 0⟩
    { time_available_seconds := 600, location := 0, equipment_mask := 0,
      goals_mask := 0, fitness_level := 0, excluded_exercises_mask := [],
      excluded_muscles_mask := 0, recent_24h_muscles_mask := 0,
      recent_48h_muscles_mask := 0, weights := ⟨0, 0, 0, 0, 0, 0⟩ }
    (List.replicate 16 (2 ^ 32 - 1)) [] (by decide)

/-- **C4, counterexample.**  With `rest_seconds = 3` and multiplier `1/2`
the scaled rest is `1.5`: the code truncates it to `1` (total 92) while the
claimed round-to-nearest gives `2` (total 94). -/
theorem estimate_time_ne_round :
    estimate_time ⟨0, 1, false, 0, 0, 3, [], 0, 1, 0⟩ 3 10 (1 / 2) = 92 ∧
      estimate_time_round ⟨0, 1, false, 0, 0, 3, [], 0, 1, 0⟩ 3 10 (1 / 2) = 94 ∧
      estimate_time ⟨0, 1, false, 0, 0, 3, [], 0, 1, 0⟩ 3 10 (1 / 2) ≠
        estimate_time_round ⟨0, 1, false, 0, 0, 3, [], 0, 1, 0⟩ 3 10 (1 / 2) := by
  have hprod : ((((3 : Int) : ℚ)) * (1 / 2)) = 3 / 2 := by norm_num
  have hfloor : ⌊(3 / 2 : ℚ)⌋ = 1 := by
    rw [Int.floor_eq_iff]; norm_num
  have hround : round (3 / 2 : ℚ) = 2 := by
    rw [round_eq, show (3 / 2 + 1 / 2 : ℚ) = 2 by norm_num]
    rw [Int.floor_eq_iff]; norm_num
  have htr : ratTrunc ((((3 : Int) : ℚ)) * (1 / 2)) = 1 := by
    rw [hprod]
    unfold ratTrunc
    rw [if_pos (by norm_num)]
    exact hfloor
  have e1 : estimate_time ⟨0, 1, false, 0, 0, 3, [], 0, 1, 0⟩ 3 10 (1 / 2) = 92 := by
    simp only [estimate_time, show ((⟨0, 1, false, 0, 0, 3, [], 0, 1, 0⟩ :
      Exercise)).rest_seconds = 3 from rfl]
    rw [htr]
    norm_num
  have e2 : estimate_time_round ⟨0, 1, false, 0, 0, 3, [], 0, 1, 0⟩ 3 10 (1 / 2) = 94 := by
    simp only [estimate_time_round, show ((⟨0, 1, false, 0, 0, 3, [], 0, 1, 0⟩ :
      Exercise)).rest_seconds = 3 from rfl, hprod, hround]
    norm_num
  exact ⟨e1, e2, by rw [e1, e2]; decide⟩

/-- Membership through descending insertion. -/
theorem insertDesc_mem {y x : Nat × ℚ} : ∀ {l : List (Nat × ℚ)},
    y ∈ insertDesc x l → y = x ∨ y ∈ l := by
  intro l
  induction l with
  | nil => intro h; simp [insertDesc] at h; exact Or.inl h
  | cons z zs ih =>
    intro h
    unfold insertDesc at h
    split at h
    · rcases List.mem_cons.mp h with h | h
      · exact Or.inl h
      · exact Or.inr h
    · rcases List.mem_cons.mp h with h | h
      · exact Or.inr (by simp [h])
      · rcases ih h with h' | h'
        · exact Or.inl h'
        · exact Or.inr (by simp [h'])

/-- Membership through the descending sort. -/
theorem sortDesc_mem {y : Nat × ℚ} : ∀ {l : List (Nat × ℚ)},
    y ∈ sortDesc l → y ∈ l := by
  intro l
  induction l with
  | nil => intro h; simp [sortDesc] at h
  | cons z zs ih =>
    intro h
    unfold sortDesc at h
    rcases insertDesc_mem h with h' | h'
    · simp [h']
    · simp [ih h']

/-- What a successful `firstFit` scan returns: a member of the ranked list,
its estimate, and the fit inequality. -/
theorem firstFit_eq_some {catalog : List Exercise} {sets reps : Int} {mult : ℚ}
    {tr : Int} : ∀ {l : List (Nat × ℚ)} {idx : Nat} {t : Int},
    firstFit catalog sets reps mult tr l = some (idx, t) →
    (∃ q, (idx, q) ∈ l) ∧
      t = estimate_time (catalog.getD idx default) sets reps mult ∧ t ≤ tr := by
  intro l
  induction l with
  | nil => intro idx t h; simp [firstFit] at h
  | cons s rest ih =>
    intro idx t h
    simp only [firstFit] at h
    split at h
    · rename_i hle
      obtain ⟨h1, h2⟩ := Prod.mk.inj (Option.some.inj h)
      subst h1
      subst h2
      exact ⟨⟨s.2, by simp⟩, rfl, hle⟩
    · obtain ⟨⟨q, hq⟩, h2, h3⟩ := ih h
      exact ⟨⟨q, by simp [hq]⟩, h2, h3⟩

/-- What a successful round of the selection loop does: it picks a valid,
not-yet-selected index whose estimate fits, marks it, unions its muscles
into the coverage, charges its time, and appends it to the output. -/
theorem solveStep_eq_some {catalog : List Exercise} {req : SolverRequest}
    {sets reps : Int} {mult : ℚ} {valid : List Nat} {st st' : SolveState}
    (h : solveStep catalog req sets reps mult valid st = some st') :
    ∃ idx t, idx ∈ valid ∧ st.selected.testBit idx = false ∧
      t = estimate_time (catalog.getD idx default) sets reps mult ∧
      t ≤ st.timeRemaining ∧
      st' = ⟨st.selected ||| (1 <<< idx),
             st.coverage ||| muscleCover (catalog.getD idx default),
             st.timeRemaining - t,
             st.results ++ [(idx, sets, reps)]⟩ := by
  simp only [solveStep] at h
  rcases hf : firstFit catalog sets reps mult st.timeRemaining
      (sortDesc ((valid.filter (fun i => !st.selected.testBit i)).map
        (fun i => (i, score_exercise (catalog.getD i default) req st.coverage)))) with _ | p
  · rw [hf] at h; exact absurd h (by simp)
  · rw [hf] at h
    obtain ⟨idx, t⟩ := p
    obtain ⟨⟨q, hq⟩, ht, hle⟩ := firstFit_eq_some hf
    have hmem := sortDesc_mem hq
    obtain ⟨i, hi, hie⟩ := List.mem_map.mp hmem
    have hidx : i = idx := congrArg Prod.fst hie
    subst hidx
    obtain ⟨hval, hsel⟩ := List.mem_filter.mp hi
    refine ⟨i, t, hval, by simpa using hsel, ht, hle, ?_⟩
    simp only [Option.some.injEq] at h
    exact h.symm

/-- Across the loop, the total charged time of the accumulated output grows
exactly by the drop in `time_remaining`. -/
theorem solveLoop_sum_eq (catalog : List Exercise) (req : SolverRequest)
    (sets reps : Int) (mult : ℚ) (valid : List Nat) : ∀ (fuel : Nat) (st : SolveState),
    ((solveLoop catalog req sets reps mult valid fuel st).results.map
        (entryTime catalog mult)).sum
      = (st.results.map (entryTime catalog mult)).sum
        + (st.timeRemaining
            - (solveLoop catalog req sets reps mult valid fuel st).timeRemaining) := by
  intro fuel
  induction fuel with
  | zero => intro st; simp [solveLoop]
  | succ fuel ih =>
    intro st
    unfold solveLoop
    split
    · rcases hs : solveStep catalog req sets reps mult valid st with _ | st2
      · simp
      · obtain ⟨idx, t, _, _, ht, _, hst2⟩ := solveStep_eq_some hs
        have := ih st2
        rw [this]
        subst hst2
        simp only [List.map_append, List.sum_append, List.map_cons, List.map_nil,
          List.sum_cons, List.sum_nil]
        have : entryTime catalog mult (idx, sets, reps)
            = estimate_time (catalog.getD idx default) sets reps mult := rfl
        rw [this, ← ht]
        ring
    · simp

/-- `time_remaining` never drops below `min` of its initial value and `0`:
a selection is only committed when its estimate fits. -/
theorem solveLoop_tr_lb (catalog : List Exercise) (req : SolverRequest)
    (sets reps : Int) (mult : ℚ) (valid : List Nat) : ∀ (fuel : Nat) (st : SolveState),
    min st.timeRemaining 0 ≤ (solveLoop catalog req sets reps mult valid fuel st).timeRemaining := by
  intro fuel
  induction fuel with
  | zero => intro st; simp [solveLoop]
  | succ fuel ih =>
    intro st
    unfold solveLoop
    split
    · rename_i htr
      rcases hs : solveStep catalog req sets reps mult valid st with _ | st2
      · simp only [hs]
        omega
      · simp only [hs]
        obtain ⟨idx, t, _, _, _, hle, hst2⟩ := solveStep_eq_some hs
        have hrec := ih st2
        have h2 : st2.timeRemaining = st.timeRemaining - t := by rw [hst2]
        omega
    · omega

/-- **C2 (amended).**  The total charged time of a solve output never
exceeds `max (time_available - reserve) 0`: inside the loop every commit
fits the remaining budget, and when the budget starts negative the loop
never runs, leaving an empty (zero-cost) output. -/
theorem solve_time_budget (catalog : List Exercise) (req : SolverRequest)
    (maxResults : Nat) :
    ((solve catalog req maxResults).map
        (entryTime catalog (restMult req.goals_mask))).sum
      ≤ max (req.time_available_seconds - reserve req.time_available_seconds) 0 := by
  simp only [solve]
  split
  · simp
  · split
    · simp
    · have hsum := solveLoop_sum_eq catalog req (setsReps req.goals_mask).1
        (setsReps req.goals_mask).2 (restMult req.goals_mask)
        ((List.range catalog.length).filter
          (fun i => passes_hard_filters (catalog.getD i default) req)) maxResults
        ⟨0, 0, req.time_available_seconds - reserve req.time_available_seconds, []⟩
      have hlb := solveLoop_tr_lb catalog req (setsReps req.goals_mask).1
        (setsReps req.goals_mask).2 (restMult req.goals_mask)
        ((List.range catalog.length).filter
          (fun i => passes_hard_filters (catalog.getD i default) req)) maxResults
        ⟨0, 0, req.time_available_seconds - reserve req.time_available_seconds, []⟩
      dsimp only at hsum hlb
      simp only [List.map_nil, List.sum_nil] at hsum
      omega

/-- No-duplication invariant of the loop: if every already-output index is
marked selected and the output indices are distinct, they stay distinct. -/
theorem solveLoop_nodup (catalog : List Exercise) (req : SolverRequest)
    (sets reps : Int) (mult : ℚ) (valid : List Nat) :
    ∀ (fuel : Nat) (st : SolveState),
    (∀ e ∈ st.results, st.selected.testBit e.1 = true) →
    (st.results.map Prod.fst).Nodup →
    ((solveLoop catalog req sets reps mult valid fuel st).results.map Prod.fst).Nodup := by
  intro fuel
  induction fuel with
  | zero => intro st _ h2; simpa [solveLoop]
  | succ fuel ih =>
    intro st h1 h2
    unfold solveLoop
    split
    · rcases hs : solveStep catalog req sets reps mult valid st with _ | st2
      · simp only [hs]; exact h2
      · simp only [hs]
        obtain ⟨idx, t, hval, hsel, ht, hle, hst2⟩ := solveStep_eq_some hs
        apply ih st2
        · intro e he
          rw [hst2] at he ⊢
          dsimp only at he ⊢
          rcases List.mem_append.mp he with he | he
          · rw [Nat.testBit_or, h1 e he]
            rfl
          · have he' : e = (idx, sets, reps) := by simpa using he
            rw [he']
            dsimp only
            rw [Nat.testBit_or, Nat.one_shiftLeft, Nat.testBit_two_pow_self]
            exact Bool.or_true _
        · rw [hst2]
          dsimp only
          rw [List.map_append]
          refine List.Nodup.append h2 (by simp) ?_
          intro a ha hb
          simp only [List.map_cons, List.map_nil, List.mem_singleton] at hb
          subst hb
          obtain ⟨e, he, hfst⟩ := List.mem_map.mp ha
          have := h1 e he
          rw [hfst] at this
          rw [this] at hsel
          exact absurd hsel (by simp)
    · exact h2

/-- **C7.**  Each exercise index appears at most once in a solve output:
committed indices are marked in the selected bit-set and marked indices are
filtered out of every later round. -/
theorem solve_no_duplicate_indices (catalog : List Exercise) (req : SolverRequest)
    (maxResults : Nat) : ((solve catalog req maxResults).map Prod.fst).Nodup := by
  simp only [solve]
  split
  · simp
  · split
    · simp
    · exact solveLoop_nodup catalog req (setsReps req.goals_mask).1
        (setsReps req.goals_mask).2 (restMult req.goals_mask)
        ((List.range catalog.length).filter
          (fun i => passes_hard_filters (catalog.getD i default) req)) maxResults
        ⟨0, 0, req.time_available_seconds - reserve req.time_available_seconds, []⟩
        (by intro e he; simp at he) (by simp)

/-- **C8.**  Coverage grows monotonically round to round: a committed round
only unions the selected exercise's non-zero-activation muscle bits into
`coverage_mask`, so every bit set before the round is still set after it. -/
theorem solveStep_coverage_mono (catalog : List Exercise) (req : SolverRequest)
    (sets reps : Int) (mult : ℚ) (valid : List Nat) (st st' : SolveState) (b : Nat)
    (h : solveStep catalog req sets reps mult valid st = some st')
    (hb : st.coverage.testBit b = true) :
    st'.coverage.testBit b = true := by
  obtain ⟨idx, t, _, _, _, _, hst2⟩ := solveStep_eq_some h
  rw [hst2]
  dsimp only
  rw [Nat.testBit_or, hb]
  rfl

theorem ratTrunc_sixty : ratTrunc 60 = 60 := by
  unfold ratTrunc
  rw [if_pos (by norm_num)]
  norm_num

theorem estimate_time_exH : estimate_time exH 4 10 1 = 300 := by
  simp only [estimate_time, exH]
  norm_num [ratTrunc_sixty]

theorem muscleCover_exH : muscleCover exH = 0 := by decide

/-- One concrete round over the singleton catalog `[exH]`: the single
candidate scores, fits (300 s into 480 s), and is committed. -/
theorem solveStep_exH (cov : Nat) (rs : List (Nat × Int × Int)) :
    solveStep [exH] reqH 4 10 1 [0] ⟨0, cov, 480, rs⟩ =
      some ⟨1, cov, 180, rs ++ [(0, 4, 10)]⟩ := by
  simp only [solveStep, List.filter, List.map, sortDesc, insertDesc, firstFit,
    List.getD_cons_zero, estimate_time_exH, muscleCover_exH]
  norm_num [muscleCover_exH, Nat.or_zero]

/-- The full solve run on `[exH]` with the hypertrophy-only request:
one exercise selected, with the code's hypertrophy sets/reps (4, 10). -/
theorem solve_exH_run : solve [exH] reqH 1 = [(0, 4, 10)] := by
  have hv : List.filter (fun i => passes_hard_filters ([exH].getD i default) reqH)
      (List.range [exH].length) = [0] := by decide
  have hs1 : (setsReps reqH.goals_mask).1 = 4 := by decide
  have hs2 : (setsReps reqH.goals_mask).2 = 10 := by decide
  have hrm : restMult reqH.goals_mask = 1 := by
    unfold restMult
    rw [if_neg (by decide), if_neg (by decide), if_neg (by decide), if_neg (by decide)]
  have hres : reqH.time_available_seconds - reserve reqH.time_available_seconds = 480 := by
    decide
  have hloop : solveLoop [exH] reqH 4 10 1 [0] 1 ⟨0, 0, 480, []⟩ = ⟨1, 0, 180, [(0, 4, 10)]⟩ := by
    show solveLoop [exH] reqH 4 10 1 [0] (0 + 1) ⟨0, 0, 480, []⟩ = ⟨1, 0, 180, [(0, 4, 10)]⟩
    unfold solveLoop
    rw [if_pos (by norm_num), solveStep_exH 0 []]
    simp [solveLoop]
  simp only [solve, hv, hs1, hs2, hrm, hres]
  norm_num [hloop]

/-- The code's if-chain equals the first-match-in-priority-order reading. -/
theorem setsReps_eq_spec (g : Nat) : setsReps g = setsRepsSpec g := by
  unfold setsReps setsRepsSpec goalPriority
  by_cases h0 : g.testBit 0 <;> by_cases h1 : g.testBit 1 <;>
    by_cases h2 : g.testBit 2 <;> by_cases h4 : g.testBit 4 <;>
      simp [List.find?, h0, h1, h2, h4]

/-- Entries carry the derived sets/reps unchanged through the loop. -/
theorem solveLoop_entries (catalog : List Exercise) (req : SolverRequest)
    (sets reps : Int) (mult : ℚ) (valid : List Nat) :
    ∀ (fuel : Nat) (st : SolveState),
    (∀ e ∈ st.results, e.2.1 = sets ∧ e.2.2 = reps) →
    ∀ e ∈ (solveLoop catalog req sets reps mult valid fuel st).results,
      e.2.1 = sets ∧ e.2.2 = reps := by
  intro fuel
  induction fuel with
  | zero => intro st h; simp only [solveLoop]; exact h
  | succ fuel ih =>
    intro st h
    unfold solveLoop
    split
    · rcases hs : solveStep catalog req sets reps mult valid st with _ | st2
      · simp only [hs]; exact h
      · simp only [hs]
        obtain ⟨idx, t, _, _, _, _, hst2⟩ := solveStep_eq_some hs
        apply ih st2
        intro e he
        rw [hst2] at he
        dsimp only at he
        rcases List.mem_append.mp he with he | he
        · exact h e he
        · have he' : e = (idx, sets, reps) := by simpa using he
          rw [he']
          exact ⟨rfl, rfl⟩
    · exact h

/-- **C3 (amended).**  `solve` derives `(base_sets, base_reps)` from the
first matching goal bit in the fixed precedence order strength >
hypertrophy > endurance > fat_loss — strength `(5,4)`, hypertrophy
`(4,10)`, endurance `(2,20)`, fat_loss `(3,14)` — and `(3,10)` when none
of those bits is set (in particular for mobility-only); every output entry
carries exactly that pair.  A hypertrophy-only request gets `(4,10)`. -/
theorem solve_sets_reps_priority (catalog : List Exercise) (req : SolverRequest)
    (maxResults : Nat) :
    setsReps req.goals_mask = setsRepsSpec req.goals_mask ∧
    ∀ e ∈ solve catalog req maxResults,
      e.2.1 = (setsRepsSpec req.goals_mask).1 ∧ e.2.2 = (setsRepsSpec req.goals_mask).2 := by
  refine ⟨setsReps_eq_spec _, ?_⟩
  rw [← setsReps_eq_spec]
  simp only [solve]
  split
  · simp
  · split
    · simp
    · exact solveLoop_entries catalog req (setsReps req.goals_mask).1
        (setsReps req.goals_mask).2 (restMult req.goals_mask)
        ((List.range catalog.length).filter
          (fun i => passes_hard_filters (catalog.getD i default) req)) maxResults
        ⟨0, 0, req.time_available_seconds - reserve req.time_available_seconds, []⟩
        (by intro e he; simp at he)

/-- Witness for `solve_sets_reps_priority`: the entry produced by the
hypertrophy-only run carries the derived pair. -/
theorem solve_sets_reps_priority_witness :
    ((0, 4, 10) : Nat × Int × Int).2.1 = (setsRepsSpec reqH.goals_mask).1 ∧
      ((0, 4, 10) : Nat × Int × Int).2.2 = (setsRepsSpec reqH.goals_mask).2 :=
  (solve_sets_reps_priority [exH] reqH 1).2 (0, 4, 10) (by rw [solve_exH_run]; simp)

/-- **C3, counterexample.**  A goals mask with only the hypertrophy bit
(bit 1) yields `(4, 10)`, not the claimed `(3, 10)`: the claim omits the
code's hypertrophy branch.  The full run on the singleton catalog shows
the output entry carrying sets 4. -/
theorem setsReps_hypertrophy_counterexample :
    setsReps 2 ≠ (3, 10) ∧ reqH.goals_mask = 2 ∧ solve [exH] reqH 1 = [(0, 4, 10)] :=
  ⟨by decide, rfl, solve_exH_run⟩

/-- **C2, counterexample.**  With `time_available_seconds = 0` the reserve
(120 s) makes the budget `-120`; the loop never runs and the empty output's
total time `0` exceeds `time_available - reserve = -120`, refuting the
claim in its unguarded form. -/
theorem solve_time_budget_counterexample :
    ¬ (((solve [exH] reqZero 1).map (entryTime [exH] (restMult reqZero.goals_mask))).sum
        ≤ reqZero.time_available_seconds - reserve reqZero.time_available_seconds) := by
  decide

/-- Witness for `solveStep_coverage_mono`: a concrete committed round over
`[exH]` starting with coverage bit 1 set keeps it set. -/
theorem solveStep_coverage_mono_witness :
    Nat.testBit 2 1 = true ∧
      (⟨1, 2, 180, [(0, 4, 10)]⟩ : SolveState).coverage.testBit 1 = true :=
  ⟨by decide,
    solveStep_coverage_mono [exH] reqH 4 10 1 [0] ⟨0, 2, 480, []⟩
      ⟨1, 2, 180, [(0, 4, 10)]⟩ 1 (solveStep_exH 2 []) (by decide)⟩

/-- **C5, counterexample.**  A successful `initExercises` call with an
empty sequence loads zero records; the next `Solve` still raises the
"uninitialized" error instead of returning an empty result, because the
guard also fires on `g_exercise_count == 0`. -/
theorem SolveB_after_empty_load_errors :
    (initExercises []).2 = 0 ∧
      SolveB (initExercises []).1 ⟨0, 0, 0, 0, 0, 0, 0, 0, [], ⟨0, 0, 0, 0, 0, 0⟩⟩ =
        Except.error uninitMsg :=
  ⟨rfl, rfl⟩

/-- **C5 (amended).**  The `Solve` boundary fails with the "uninitialized"
error iff no successful load has occurred *or* the loaded catalog is empty;
in particular a successful load of an empty sequence still leaves `Solve`
erroring. -/
theorem SolveB_error_iff (st : NativeState) (r : RequestObj) :
    SolveB st r = Except.error uninitMsg ↔
      (st.g_init = false ∨ st.g_exercises.length = 0) := by
  unfold SolveB
  split
  · rename_i hcond
    simp only [Bool.or_eq_true, Bool.not_eq_true', beq_iff_eq] at hcond
    exact iff_of_true rfl hcond
  · rename_i hcond
    simp only [Bool.or_eq_true, Bool.not_eq_true', beq_iff_eq] at hcond
    push_neg at hcond
    constructor
    · intro hx
      exact absurd hx (by simp)
    · intro hx
      rcases hx with hx | hx
      · exact absurd hx hcond.1
      · exact absurd hx hcond.2

/-- **C6.**  The boundary `Solve` never reads the caller's weights: two
request objects differing only in `weights` produce identical outputs, and
the parsed request always carries the fixed defaults `{10, 5, -20, -10, 5, 15}`. -/
theorem SolveB_ignores_weights (st : NativeState) (r : RequestObj)
    (w : ScoringWeights) :
    SolveB st { r with weights := w } = SolveB st r ∧
      (parseRequest r).weights = ⟨10, 5, -20, -10, 5, 15⟩ :=
  ⟨rfl, rfl⟩

theorem scoreBatchLoop_length (cat : List Exercise) (req : SolverRequest) :
    ∀ l : List Int, (scoreBatchLoop cat req l).length = l.length := by
  intro l
  induction l with
  | nil => rfl
  | cons idx rest ih => simp [scoreBatchLoop, ih]

theorem scoreBatchLoop_getD (cat : List Exercise) (req : SolverRequest) :
    ∀ (l : List Int) (k : Nat), k < l.length →
      (scoreBatchLoop cat req l).getD k 0 =
        (if 0 ≤ l.getD k 0 ∧ l.getD k 0 < (cat.length : Int)
         then score_exercise (cat.getD (l.getD k 0).toNat default) req 0 else 0) := by
  intro l
  induction l with
  | nil => intro k hk; simp at hk
  | cons idx rest ih =>
    intro k hk
    cases k with
    | zero => simp [scoreBatchLoop]
    | succ k =>
      simp only [scoreBatchLoop, List.getD_cons_succ]
      exact ih k (by simpa using hk)

/-- **C9.**  In an initialised state, `ScoreBatch` succeeds and returns one
score per requested index: out-of-range indices (negative or at least the
catalog size) yield `0.0` instead of an error, and in-range indices yield
the scoring function at coverage mask `0`, with no hard filter applied. -/
theorem ScoreBatchB_spec (st : NativeState) (idxs : List Int) (r : RequestObj)
    (h : st.g_init = true) :
    ScoreBatchB st idxs r =
        Except.ok (scoreBatchLoop st.g_exercises (scoreBatchReq r) idxs) ∧
      (scoreBatchLoop st.g_exercises (scoreBatchReq r) idxs).length = idxs.length ∧
      ∀ k, k < idxs.length →
        (scoreBatchLoop st.g_exercises (scoreBatchReq r) idxs).getD k 0 =
          (if 0 ≤ idxs.getD k 0 ∧ idxs.getD k 0 < (st.g_exercises.length : Int)
           then score_exercise (st.g_exercises.getD (idxs.getD k 0).toNat default)
             (scoreBatchReq r) 0
           else 0) := by
  refine ⟨?_, scoreBatchLoop_length _ _ _, fun k hk => scoreBatchLoop_getD _ _ _ k hk⟩
  unfold ScoreBatchB
  rw [h]
  rfl

/-- Witness for `ScoreBatchB_spec`: an initialised single-exercise state
scoring indices `[-1, 0, 1]` (two out of range, one in range). -/
theorem ScoreBatchB_spec_witness :
    ScoreBatchB ⟨[exH], true⟩ [-1, 0, 1] ⟨0, 0, 0, 0, 0, 0, 0, 0, [], ⟨0, 0, 0, 0, 0, 0⟩⟩ =
      Except.ok (scoreBatchLoop [exH]
        (scoreBatchReq ⟨0, 0, 0, 0, 0, 0, 0, 0, [], ⟨0, 0, 0, 0, 0, 0⟩⟩) [-1, 0, 1]) :=
  (ScoreBatchB_spec ⟨[exH], true⟩ [-1, 0, 1]
    ⟨0, 0, 0, 0, 0, 0, 0, 0, [], ⟨0, 0, 0, 0, 0, 0⟩⟩ rfl).1

/-- **C4 (amended).**  `estimate_time` equals
`setup_time + sets*(reps*3) + (sets-1)*trunc(rest_seconds * rest_multiplier)`
where `trunc` is truncation toward zero (the C integer cast) — not
round-to-nearest — and `setup_time` is 30 iff any equipment is required. -/
theorem estimate_time_eq_trunc (ex : Exercise) (sets reps : Int) (mult : ℚ) :
    estimate_time ex sets reps mult = estimate_time_trunc ex sets reps mult := rfl
